import Mathlib

/-!
Verification development for the HubSpot customer-lead dashboard data
pipeline (src/app/lib/hubspot-actions.ts, the module imported by the app
page).  The TypeScript functions are shallowly embedded as executable Lean
definitions.  JavaScript floating-point monetary values are modelled as
integers: the claims under study concern comparisons, sums, counts and
sign facts whose bounds (the 1e12 validity cutoff, the distribution band
edges, the lifecycle estimates) are all integral, so they are
value-generic and do not depend on binary rounding or fractional cents;
the division-producing averages and rates are returned as exact
rationals.  The result of JavaScript numeric conversion of a raw field
(`Number.parseFloat` / `Number(...)`, which may yield NaN or infinities)
is modelled by the type `JSNum`.
-/

namespace Dashboard

/-- Result of JavaScript numeric conversion of a raw field: a finite
number, NaN (e.g. `parseFloat` of garbage or of an absent value), or an
infinity. -/
inductive JSNum where
  | num (q : Int)
  | nan
  | inf
  | negInf
deriving DecidableEq

/-- `parseCurrency` (hubspot-actions.ts lines 10-16): strips decoration
and parses; any non-finite parse result (NaN or an infinity), and any
absent/empty input (whose parse is NaN), degrades to 0.  The
string-cleaning step is abstracted by `JSNum` carrying the parse result. -/
def parseCurrency : JSNum → Int
  | .num q => q
  | _ => 0

/-- JavaScript `>` comparison of a possibly-NaN number against a finite
constant: NaN compares false, +Infinity compares true. -/
def jsGtNum : JSNum → Int → Bool
  | .num q, c => decide (c < q)
  | .nan, _ => false
  | .inf, _ => true
  | .negInf, _ => false

/-- JavaScript `x || y` on strings: the empty string is falsy. -/
def jsOrStr (x y : String) : String :=
  if x = "" then y else x

/-- `calculateAverage` (lines 18-22). -/
def calculateAverage (arr : List Int) : ℚ :=
  if arr.length = 0 then 0 else (arr.sum : ℚ) / (arr.length : ℚ)

/-! ### Character-list string primitives (JS `toLowerCase`, `trim`,
`includes`, `indexOf`, split).  These are structural recursions so every
concrete instance evaluates inside the kernel. -/

/-- JS `toLowerCase` (the account data is ASCII). -/
def strLower (s : String) : String :=
  ⟨s.data.map Char.toLower⟩

/-- JS `trim`. -/
def strTrim (s : String) : String :=
  ⟨((s.data.dropWhile Char.isWhitespace).reverse.dropWhile Char.isWhitespace).reverse⟩

/-- Does `p` occur as a literal block at the head of `l`? -/
def matchesAt : List Char → List Char → Bool
  | [], _ => true
  | _ :: _, [] => false
  | p :: ps, c :: cs => p = c && matchesAt ps cs

/-- Index of the first occurrence of `pat` in `l` (JS `indexOf`),
`none` when absent. -/
def firstIdx (pat : List Char) : List Char → Option Nat
  | [] => if pat = [] then some 0 else none
  | c :: cs =>
    if matchesAt pat (c :: cs) then some 0
    else (firstIdx pat cs).map (· + 1)

/-- JS `hay.includes(pat)`. -/
def containsStr (hay pat : String) : Bool :=
  (firstIdx pat.data hay.data).isSome

/-- JS `hay.indexOf(pat)` specialised to the call sites where the pattern
is known to occur (`-1` never arises there); absent pattern maps to 0. -/
def strIdxOf (hay pat : String) : Nat :=
  (firstIdx pat.data hay.data).getD 0

/-- First `n` characters of a string (JS `substring(0, n)` / `slice`). -/
def strTake (s : String) (n : Nat) : String :=
  ⟨s.data.take n⟩

/-- A separator character of the JS regex class `[\s,]`. -/
def isSepChar (c : Char) : Bool :=
  c = ',' || c.isWhitespace

/-- Token accumulation for JS `split(/[\s,]+/)`.  The flag records being
inside a separator run (the current token already emitted); `cur` is the
reversed current token. -/
def splitSepCore : List Char → Bool → List Char → List (List Char)
  | [], true, _ => [[]]
  | [], false, cur => [cur.reverse]
  | c :: t, true, _ =>
    if isSepChar c then splitSepCore t true []
    else splitSepCore t false [c]
  | c :: t, false, cur =>
    if isSepChar c then cur.reverse :: splitSepCore t true []
    else splitSepCore t false (c :: cur)

/-- JS `s.split(/[\s,]+/)`: leading or trailing separator runs produce
empty tokens at that end, interior runs collapse. -/
def jsSplitSep (s : String) : List String :=
  (splitSepCore s.data false []).map fun l => ⟨l⟩

/-- Strip one trailing comma (JS `replace(/,$/ , "")`). -/
def stripTrailingComma (s : String) : String :=
  match s.data.reverse with
  | ',' :: rest => ⟨rest.reverse⟩
  | _ => s

/-! ### Brand extraction (lines 246-268) -/

def KNOWN_BRANDS_HS : List String :=
  ["Hospeco", "Indoff", "Triad", "Impact", "Legacy", "Acme", "Supply", "Corp", "LLC", "Inc"]

def GENERIC_SUFFIXES : List String :=
  ["LLC", "Inc", "Corp", "Group", "Brands"]

/-- The `for (const brand of KNOWN_BRANDS_HS)` loop body: on the first
case-insensitive containment hit, either the original-casing text before
a generic corporate suffix (trimmed, trailing comma stripped) or the list
token itself. -/
def brandScan (accountName lowerCaseName : String) : List String → Option String
  | [] => none
  | brand :: rest =>
    if containsStr lowerCaseName (strLower brand) then
      some
        (if brand ∈ GENERIC_SUFFIXES ∧
            (strTrim (strTake lowerCaseName (strIdxOf lowerCaseName (strLower brand))) ≠ "") then
          let potentialBrand :=
            strTrim (stripTrailingComma (strTrim (strTake accountName (strIdxOf lowerCaseName (strLower brand)))))
          if potentialBrand ≠ "" then potentialBrand else brand
        else brand)
    else brandScan accountName lowerCaseName rest

/-- `extractBrandFromAccountNameHS` (lines 246-268).  The JS
`split(brand)[0]` prefix test is realised as the text before the first
occurrence index, which is the same string. -/
def extractBrandFromAccountNameHS (accountName : String) : String :=
  let lowerCaseName := strLower accountName
  match brandScan accountName lowerCaseName KNOWN_BRANDS_HS with
  | some b => b
  | none =>
    let words := jsSplitSep accountName
    match words with
    | [] => "Other"
    | w :: _ =>
      if w.length > 2 ∧ w ∉ (["The", "A", "An"] : List String) then w else "Other"

/-! ### Lifecycle-stage estimated value (transformer switch, lines 161-186) -/

/-- The `switch (lifecycleStage.toLowerCase())` assigning `leadValue`
(lines 165-186).  The source stores these as decimal strings later read
back by `parseCurrency`; the model carries their numeric values. -/
def leadValue (lifecycleStage : String) : Int :=
  match strLower lifecycleStage with
  | "customer" => 25000
  | "salesqualifiedlead" => 10000
  | "sql" => 10000
  | "marketingqualifiedlead" => 5000
  | "mql" => 5000
  | "lead" => 2000
  | "subscriber" => 500
  | _ => 1000

/-! ### Account record and lead health scoring -/

/-- The normalized `AccountData` record (lib/types.ts).  String-keyed
fields keep their source meaning; `totalSales` and `numVisits` carry the
JS numeric-conversion result of the corresponding text fields
(`Total Sales`, `Number of Visits`); `dateCreated` carries the
year/month of a successfully parsed `Date Created` and `none` for the
"N/A" sentinel or an unparseable date. -/
structure AccountData where
  accountID : Int
  accountName : String
  address : String
  totalSales : JSNum
  dateCreated : Option (Nat × Nat)
  dateLastQuoted : String
  primaryRepName : String
  lifecycleStage : String
  analyticsSource : String
  latestSource : String
  firstTouchCampaign : String
  lastTouchCampaign : String
  firstURL : String
  numVisits : JSNum
deriving DecidableEq

/-- `calculateLeadHealthScore` (lines 953-970): base 50; one source bonus
checked in the order Organic Search +15, Paid Search +10, Referral +20;
a visits bonus (+15 above 5, else +10 above 2); one lifecycle-stage bonus
(salesqualifiedlead +25, marketingqualifiedlead +15, customer +30,
checked by exact lowercased equality); clamped to [0, 100]. -/
def calculateLeadHealthScore (account : AccountData) : Int :=
  let score : Int := 50
  let source := jsOrStr account.analyticsSource "Unknown"
  let score :=
    if containsStr source "Organic Search" then score + 15
    else if containsStr source "Paid Search" then score + 10
    else if containsStr source "Referral" then score + 20
    else score
  let visits := account.numVisits
  let score :=
    if jsGtNum visits 5 then score + 15
    else if jsGtNum visits 2 then score + 10
    else score
  let stage := strLower account.lifecycleStage
  let score :=
    if stage = "salesqualifiedlead" then score + 25
    else if stage = "marketingqualifiedlead" then score + 15
    else if stage = "customer" then score + 30
    else score
  max 0 (min 100 score)

/-- `getLeadTemperature` (lines 972-977). -/
def getLeadTemperature (healthScore : Int) : String :=
  if healthScore ≥ 80 then "Hot"
  else if healthScore ≥ 60 then "Warm"
  else if healthScore ≥ 40 then "Cool"
  else "Cold"

/-! ### Traffic-source normalization (lines 940-951) -/

def normalizeTrafficSource (source : String) : String :=
  if source = "" ∨ source = "Unknown" then "Unknown"
  else
    let normalized := strLower source
    if containsStr normalized "organic" || containsStr normalized "seo" then "Organic Search"
    else if containsStr normalized "paid" || containsStr normalized "cpc" || containsStr normalized "adwords" then "Paid Search"
    else if containsStr normalized "social" || containsStr normalized "facebook" || containsStr normalized "linkedin" then "Social Media"
    else if containsStr normalized "email" then "Email Marketing"
    else if containsStr normalized "direct" then "Direct Traffic"
    else if containsStr normalized "referral" then "Referral"
    else if containsStr normalized "offline" then "Offline"
    else source

/-! ### State-code extraction: the regex `\b([A-Z]{2})\b(?=,?\s*\d{5}(-\d{4})?$)` -/

def isAsciiUpper (c : Char) : Bool :=
  'A' ≤ c && c ≤ 'Z'

/-- JS word character class `\w` = `[A-Za-z0-9_]`. -/
def isWordChar (c : Char) : Bool :=
  c.isAlphanum || c = '_'

/-- Consume exactly `n` ASCII digits, returning the remainder. -/
def takeDigits : List Char → Nat → Option (List Char)
  | l, 0 => some l
  | [], _ + 1 => none
  | c :: t, n + 1 => if c.isDigit then takeDigits t n else none

/-- The lookahead `,?\s*\d{5}(-\d{4})?$` applied to the text after the
two capital letters. -/
def zipTailMatch (l : List Char) : Bool :=
  let l1 := match l with
    | ',' :: t => t
    | _ => l
  let l2 := l1.dropWhile Char.isWhitespace
  match takeDigits l2 5 with
  | none => false
  | some rest =>
    match rest with
    | [] => true
    | '-' :: r2 =>
      match takeDigits r2 4 with
      | some [] => true
      | _ => false
    | _ => false

/-- Does the state regex match at this position (`prev` is the character
before the position, for the leading word boundary)? -/
def stateHitAt (prev : Option Char) (a : Char) (t : List Char) : Bool :=
  (match prev with
   | none => true
   | some p => !(isWordChar p)) &&
  isAsciiUpper a &&
  (match t with
   | b :: c :: r2 => isAsciiUpper b && !(isWordChar c) && zipTailMatch (c :: r2)
   | _ => false)

/-- Left-to-right regex scan: the first position where the state pattern
matches yields the two-letter capture. -/
def scanState (prev : Option Char) : List Char → Option String
  | [] => none
  | a :: t =>
    if stateHitAt prev a t then
      match t with
      | b :: _ => some ⟨[a, b]⟩
      | [] => none
    else scanState (some a) t

/-- `address.match(/\b([A-Z]{2})\b(?=,?\s*\d{5}(-\d{4})?$)/)` capture
group 1, `none` when the regex does not match. -/
def extractState (address : String) : Option String :=
  scanState none address.data

/-! ### Keyed rollup primitives (JS object used as a dictionary) -/

/-- The JS pattern `if (!m[k]) m[k] = init; m[k] = upd(m[k])`: update the
existing entry in place, or append a fresh one (JS object key order is
insertion order). -/
def bumpWith {α : Type} (k : String) (init : α) (upd : α → α) : List (String × α) → List (String × α)
  | [] => [(k, upd init)]
  | (k2, a) :: t => if k2 = k then (k2, upd a) :: t else (k2, a) :: bumpWith k init upd t

/-- `m[k]++` where the call sites guarantee the key exists (the
pre-initialized sales-distribution bands); a missing key is a no-op. -/
def incrKey (k : String) : List (String × Nat) → List (String × Nat)
  | [] => []
  | (k2, n) :: t => if k2 = k then (k2, n + 1) :: t else (k2, n) :: incrKey k t

/-! ### Aggregation engine (`processAccountDataInternal`, lines 270-601).
The `recentlyQuoted` counter and `timeBasedInsights` depend on the wall
clock (`new Date()` / `Date.now`), as does the `riskLevel` component of
`leadHealthScores`; those output fields are omitted from this model. -/

structure RepStats where
  sales : Int
  accounts : Nat
deriving DecidableEq

structure StateStats where
  accounts : Nat
  sales : Int
deriving DecidableEq

structure SourceStats where
  leads : Nat
  revenue : Int
  conversionRate : ℚ
  avgDealSize : ℚ
deriving DecidableEq

/-- The `{ leads, revenue }` accumulator shape shared by the geographic
and campaign rollups. -/
structure LeadsRevenue where
  leads : Nat
  revenue : Int
deriving DecidableEq

structure PageStats where
  leads : Nat
  revenue : Int
  avgDealSize : ℚ
  sqlCount : Nat
  conversionRate : ℚ
deriving DecidableEq

structure MonthStats where
  accounts : Nat
  revenue : Int
deriving DecidableEq

structure MonthTrend where
  month : String
  accounts : Nat
  revenue : Int
deriving DecidableEq

/-- The validity guard of the main pass (line 303):
`!isFinite(sales) || isNaN(sales) || Math.abs(sales) > 1e12`.
`parseCurrency` output is always finite, so only the magnitude test can
fire. -/
def salesExcluded (sales : Int) : Bool :=
  decide ((1000000000000 : Int) < |sales|)

/-- The six fixed revenue bands, pre-initialized to 0 (line 276). -/
def salesDistributionInit : List (String × Nat) :=
  [("Negative", 0), ("$0-$1K", 0), ("$1K-$5K", 0), ("$5K-$10K", 0), ("$10K-$25K", 0), ("$25K+", 0)]

/-- The band selected by the if/else chain of lines 326-331. -/
def salesBand (sales : Int) : String :=
  if sales < 0 then "Negative"
  else if sales ≤ 1000 then "$0-$1K"
  else if sales ≤ 5000 then "$1K-$5K"
  else if sales ≤ 10000 then "$5K-$10K"
  else if sales ≤ 25000 then "$10K-$25K"
  else "$25K+"

/-- Mutable state of the guarded `data.forEach` main pass
(lines 298-352). -/
structure MainAcc where
  totalSalesValue : Int
  validSales : List Int
  lifecycleStageDistribution : List (String × Nat)
  salesByRep : List (String × RepStats)
  salesByBrand : List (String × RepStats)
  salesDistribution : List (String × Nat)
  topStates : List (String × StateStats)
deriving DecidableEq

def mainAccInit : MainAcc :=
  { totalSalesValue := 0
    validSales := []
    lifecycleStageDistribution := []
    salesByRep := []
    salesByBrand := []
    salesDistribution := salesDistributionInit
    topStates := [] }

/-- One iteration of the guarded main pass: rows failing the validity
guard are skipped entirely (the early `return` of line 303). -/
def mainStep (acc : MainAcc) (row : AccountData) : MainAcc :=
  let sales := parseCurrency row.totalSales
  if salesExcluded sales then acc
  else
    let rep := jsOrStr row.primaryRepName "N/A"
    let brand := extractBrandFromAccountNameHS row.accountName
    let lifecycleStage := jsOrStr row.lifecycleStage "unknown"
    { totalSalesValue := acc.totalSalesValue + sales
      validSales :=
        if 0 < sales ∧ |sales| < 1000000000000 then acc.validSales ++ [sales] else acc.validSales
      lifecycleStageDistribution :=
        bumpWith lifecycleStage 0 (· + 1) acc.lifecycleStageDistribution
      salesByRep :=
        bumpWith rep ⟨0, 0⟩ (fun st => ⟨st.sales + sales, st.accounts + 1⟩) acc.salesByRep
      salesByBrand :=
        bumpWith brand ⟨0, 0⟩ (fun st => ⟨st.sales + sales, st.accounts + 1⟩) acc.salesByBrand
      salesDistribution := incrKey (salesBand sales) acc.salesDistribution
      topStates :=
        match extractState row.address with
        | some st =>
          bumpWith st ⟨0, 0⟩ (fun x => ⟨x.accounts + 1, x.sales + sales⟩) acc.topStates
        | none => acc.topStates }

def mainFold (data : List AccountData) : MainAcc :=
  data.foldl mainStep mainAccInit

/-- Comparator of `[...data].sort((a, b) => parseCurrency(b) - parseCurrency(a))`
(line 380), as the total preorder it induces. -/
def salesGe (a b : AccountData) : Prop :=
  parseCurrency b.totalSales ≤ parseCurrency a.totalSales

instance : DecidableRel salesGe :=
  fun _ _ => inferInstanceAs (Decidable (_ ≤ _))

instance : IsTotal AccountData salesGe :=
  ⟨fun a b => le_total (parseCurrency b.totalSales) (parseCurrency a.totalSales)⟩

instance : IsTrans AccountData salesGe :=
  ⟨fun _ _ _ h1 h2 => le_trans h2 h1⟩

/-- JS `sort` with a consistent comparator is the unique stable sort for
the induced total preorder, embedded here as a stable insertion sort. -/
def sortedAccountsOf (data : List AccountData) : List AccountData :=
  data.insertionSort salesGe

/-- JS `arr.slice(-n)` for `n > 0`: the last `n` elements (the whole
array when `n` exceeds its length, which saturating `Nat` subtraction
reproduces). -/
def jsSliceLast {α : Type} (n : Nat) (l : List α) : List α :=
  l.drop (l.length - n)

/-- `leastPerformingAccounts` (lines 382-392): tail of the descending
sort restricted to negative values, reversed; padded from the tail of the
non-negative subsequence when fewer than 5 negatives exist. -/
def leastPerformingOf (data : List AccountData) : List AccountData :=
  let sortedAccounts := sortedAccountsOf data
  let least :=
    (jsSliceLast 5 (sortedAccounts.filter fun a => decide (parseCurrency a.totalSales < 0))).reverse
  if least.length < 5 ∧ sortedAccounts.length > 0 then
    let lowestPositive :=
      (jsSliceLast (5 - least.length)
        (sortedAccounts.filter fun a => decide (0 ≤ parseCurrency a.totalSales))).reverse
    least ++ lowestPositive
  else least

/-- Zero-padded month component of the key `${year}-${month}` (line 364). -/
def pad2 (n : Nat) : String :=
  if n < 10 then "0" ++ toString n else toString n

def monthKey (ym : Nat × Nat) : String :=
  toString ym.1 ++ "-" ++ pad2 ym.2

/-- Lexicographic character-list comparison, realising `localeCompare`
ordering on the ASCII month keys. -/
def charListLe : List Char → List Char → Bool
  | [], _ => true
  | _ :: _, [] => false
  | a :: at1, b :: bt1 => if a = b then charListLe at1 bt1 else decide (a < b)

def monthKeyLe (a b : String × MonthStats) : Prop :=
  charListLe a.1.data b.1.data = true

instance : DecidableRel monthKeyLe :=
  fun _ _ => inferInstanceAs (Decidable (_ = true))

/-- `monthlyTrends` (lines 357-378): bucket rows with a parseable
creation date by year-month (no validity guard on the revenue), sort the
buckets by key, keep the last 12.  `localeCompare` on the zero-padded
keys is lexicographic order; the display label produced by
`toLocaleDateString` is abstracted as the key itself. -/
def monthlyTrendsOf (data : List AccountData) : List MonthTrend :=
  let monthCounts : List (String × MonthStats) :=
    data.foldl
      (fun m row =>
        match row.dateCreated with
        | none => m
        | some ym =>
          bumpWith (monthKey ym) ⟨0, 0⟩
            (fun s => ⟨s.accounts + 1, s.revenue + parseCurrency row.totalSales⟩) m)
      []
  (jsSliceLast 12 (monthCounts.insertionSort monthKeyLe)).map
    fun e => ⟨e.1, e.2.accounts, e.2.revenue⟩

/-- The source key of the traffic rollup (line 396):
`normalizeTrafficSource(a["Analytics Source"] || a["Latest Source"] || "Unknown")`. -/
def rowTrafficSource (a : AccountData) : String :=
  normalizeTrafficSource (jsOrStr a.analyticsSource (jsOrStr a.latestSource "Unknown"))

/-- First traffic pass (lines 395-405): leads and revenue per normalized
source, with no validity guard on the revenue. -/
def trafficSourceFold (data : List AccountData) : List (String × SourceStats) :=
  data.foldl
    (fun m a =>
      bumpWith (rowTrafficSource a) ⟨0, 0, 0, 0⟩
        (fun s => { s with leads := s.leads + 1, revenue := s.revenue + parseCurrency a.totalSales })
        m)
    []

def isSQLStage (a : AccountData) : Bool :=
  strLower a.lifecycleStage = "salesqualifiedlead"

/-- Second traffic pass (lines 408-419): average deal size and SQL
conversion rate per source. -/
def trafficSourcePerformanceOf (data : List AccountData) : List (String × SourceStats) :=
  (trafficSourceFold data).map fun e =>
    let sourceAccounts := data.filter fun a => rowTrafficSource a = e.1
    let sqlCount := (sourceAccounts.filter isSQLStage).length
    (e.1,
      { e.2 with
        avgDealSize := if e.2.leads > 0 then (e.2.revenue : ℚ) / (e.2.leads : ℚ) else 0
        conversionRate :=
          if sourceAccounts.length > 0 then
            ((sqlCount : ℚ) / (sourceAccounts.length : ℚ)) * 100
          else 0 })

/-- `geographicDistribution` (lines 422-434): every account lands in a
state bucket or "Unknown"; no validity guard on the revenue. -/
def geographicDistributionOf (data : List AccountData) : List (String × LeadsRevenue) :=
  data.foldl
    (fun m a =>
      let address := jsOrStr a.address "Unknown"
      let state := (extractState address).getD "Unknown"
      bumpWith state ⟨0, 0⟩
        (fun s => ⟨s.leads + 1, s.revenue + parseCurrency a.totalSales⟩) m)
    []

/-- `campaignPerformance` (lines 452-464): keyed by last-touch campaign
falling back to first-touch; no validity guard on the revenue. -/
def campaignPerformanceOf (data : List AccountData) : List (String × LeadsRevenue) :=
  data.foldl
    (fun m a =>
      let campaign := jsOrStr a.lastTouchCampaign (jsOrStr a.firstTouchCampaign "")
      if campaign ≠ "" ∧ strTrim campaign ≠ "" ∧ campaign ≠ "Unknown Campaign" then
        bumpWith campaign ⟨0, 0⟩
          (fun s => ⟨s.leads + 1, s.revenue + parseCurrency a.totalSales⟩) m
      else m)
    []

/-- Modelled WHATWG URL parsing restricted to absolute http(s) URLs:
`some` pathname on success, `none` when `new URL(...)` throws. -/
def urlPathname (s : String) : Option String :=
  let afterScheme : Option (List Char) :=
    if matchesAt "http://".data s.data then some (s.data.drop 7)
    else if matchesAt "https://".data s.data then some (s.data.drop 8)
    else none
  match afterScheme with
  | none => none
  | some rest =>
    let hostChars := rest.takeWhile fun c => (c != '/') && (c != '?') && (c != '#')
    if hostChars.isEmpty then none
    else
      let tail := rest.drop hostChars.length
      match tail with
      | '/' :: _ => some ⟨tail.takeWhile fun c => (c != '?') && (c != '#')⟩
      | _ => some "/"

/-- The landing-page bucket classifier (lines 477-502). -/
def classifyLandingPage (pathname : String) : String :=
  if pathname = "/" ∨ pathname = "" then "Homepage"
  else if containsStr pathname "/home" then "Home Page"
  else if containsStr pathname "/product" then "Product Pages"
  else if containsStr pathname "/about" then "About Us"
  else if containsStr pathname "/contact" then "Contact Us"
  else if containsStr pathname "/blog" then "Blog"
  else if containsStr pathname "/pricing" then "Pricing"
  else if containsStr pathname "/demo" then "Demo/Trial"
  else if containsStr pathname "/case-study" ∨ containsStr pathname "/case-studies" then "Case Studies"
  else if containsStr pathname "/resource" then "Resources"
  else if pathname.length > 30 then strTake pathname 30 ++ "..." else pathname

/-- First landing-page pass (lines 469-530): bucket by classified
pathname (or by the truncated raw URL when parsing throws); no validity
guard on the revenue. -/
def landingPageFold (data : List AccountData) : List (String × PageStats) :=
  data.foldl
    (fun m a =>
      let firstUrl := a.firstURL
      if firstUrl ≠ "" ∧ strTrim firstUrl ≠ "" then
        let key :=
          match urlPathname firstUrl with
          | some pathname => classifyLandingPage pathname
          | none => if firstUrl.length > 40 then strTake firstUrl 40 ++ "..." else firstUrl
        bumpWith key ⟨0, 0, 0, 0, 0⟩
          (fun s =>
            { s with
              leads := s.leads + 1
              revenue := s.revenue + parseCurrency a.totalSales
              sqlCount := if isSQLStage a then s.sqlCount + 1 else s.sqlCount })
          m
      else m)
    []

/-- Second landing-page pass (lines 533-537). -/
def landingPagePerformanceOf (data : List AccountData) : List (String × PageStats) :=
  (landingPageFold data).map fun e =>
    (e.1,
      { e.2 with
        avgDealSize := if e.2.leads > 0 then (e.2.revenue : ℚ) / (e.2.leads : ℚ) else 0
        conversionRate :=
          if e.2.leads > 0 then ((e.2.sqlCount : ℚ) / (e.2.leads : ℚ)) * 100 else 0 })

/-- The summary snapshot (`ProcessedData`, lib/types.ts), restricted to
the fields free of wall-clock dependence. -/
structure ProcessedData where
  totalAccounts : Nat
  totalRevenue : Int
  averageDealSize : ℚ
  salesByRep : List (String × RepStats)
  salesDistribution : List (String × Nat)
  monthlyTrends : List MonthTrend
  topStates : List (String × StateStats)
  salesByBrand : List (String × RepStats)
  topPerformingAccounts : List AccountData
  leastPerformingAccounts : List AccountData
  allAccounts : List AccountData
  lifecycleStageDistribution : List (String × Nat)
  trafficSourcePerformance : List (String × SourceStats)
  geographicDistribution : List (String × LeadsRevenue)
  campaignPerformance : List (String × LeadsRevenue)
  landingPagePerformance : List (String × PageStats)
deriving DecidableEq

/-- `processAccountDataInternal` (lines 270-601). -/
def processAccountDataInternal (data : List AccountData) : ProcessedData :=
  let acc := mainFold data
  { totalAccounts := data.length
    totalRevenue := acc.totalSalesValue
    averageDealSize := calculateAverage acc.validSales
    salesByRep := acc.salesByRep
    salesDistribution := acc.salesDistribution
    monthlyTrends := monthlyTrendsOf data
    topStates := acc.topStates
    salesByBrand := acc.salesByBrand
    topPerformingAccounts := (sortedAccountsOf data).take 5
    leastPerformingAccounts := leastPerformingOf data
    allAccounts := data
    lifecycleStageDistribution := acc.lifecycleStageDistribution
    trafficSourcePerformance := trafficSourcePerformanceOf data
    geographicDistribution := geographicDistributionOf data
    campaignPerformance := campaignPerformanceOf data
    landingPagePerformance := landingPagePerformanceOf data }

/-! ### Data-source adapter fallback (`fetchAndProcessHubSpotData`, lines 603-932)

The remote transport is modelled as an environment value: either a
transport fault (any exception inside the `try` block, caught at line 927
and turned into `null`) or a fetched contact list.  The model is taken at
the call with no date range (all date-filter branches are inert), with
every per-ID company/owner lookup failing into sentinel values (each
failure is caught and skipped, lines 900-918), and with the flat-file
adapter's output abstracted as an environment-supplied snapshot. -/

/-- The contact properties read by the qualification filter and the
transformer (absent HubSpot properties are `none`). -/
structure HSContact where
  id : Int
  firstname : String
  lastname : String
  company : String
  lifecyclestage : Option String
  leadStatus : Option String
  hsLeadStatus : Option String
  createdate : Option (Nat × Nat)
deriving DecidableEq

/-- The SQL/MQL qualification filter (lines 768-787). -/
def isQualifiedLead (c : HSContact) : Bool :=
  let ls := c.lifecyclestage.map strLower
  let lead := c.leadStatus.map strLower
  let hs := c.hsLeadStatus.map strLower
  ls = some "salesqualifiedlead" || ls = some "marketingqualifiedlead" ||
  ls = some "sql" || ls = some "mql" ||
  lead = some "sales qualified lead" || lead = some "marketing qualified lead" ||
  lead = some "sql" || lead = some "mql" ||
  hs = some "sales qualified lead" || hs = some "marketing qualified lead" ||
  hs = some "sql" || hs = some "mql"

/-- `transformHubSpotDataToAccountData` (lines 119-244) at the modelled
instantiation: empty company/owner maps (failed lookups) and no date
range.  The estimated `Total Sales` is the lifecycle-stage `leadValue`;
contact ids are assumed to parse as integers (otherwise the source draws
a random id). -/
def transformContact (c : HSContact) : AccountData :=
  let contactName := strTrim (c.firstname ++ " " ++ c.lastname)
  let accountName := jsOrStr c.company (jsOrStr contactName "Unknown Account")
  let lifecycleStage := jsOrStr (c.lifecyclestage.getD "") "unknown"
  { accountID := c.id
    accountName := accountName
    address := "N/A"
    totalSales := .num (leadValue lifecycleStage)
    dateCreated := c.createdate
    dateLastQuoted := "N/A"
    primaryRepName := "N/A"
    lifecycleStage := lifecycleStage
    analyticsSource := "Unknown"
    latestSource := "Unknown"
    firstTouchCampaign := ""
    lastTouchCampaign := ""
    firstURL := ""
    numVisits := .num 0 }

inductive RemoteFetch where
  | fault
  | ok (contacts : List HSContact)
deriving DecidableEq

structure HSEnv where
  hubspotApiKey : Option String
  remote : RemoteFetch
  csvSnapshot : ProcessedData
deriving DecidableEq

/-- Result surfaced to the caller: a thrown configuration error, the
`null` returned by the catch-all handler, or a snapshot. -/
inductive FetchOutcome where
  | configError
  | nullFailure
  | snapshot (d : ProcessedData)
deriving DecidableEq

/-- `fetchAndProcessHubSpotData` (lines 603-932): missing or blank
credential throws before the `try` block; a transport fault is caught and
becomes `null`; a fetch with zero qualifying records falls back to the
flat-file snapshot (line 792-795); otherwise the qualified records are
transformed and aggregated. -/
def fetchAndProcessHubSpotData (env : HSEnv) : FetchOutcome :=
  match env.hubspotApiKey with
  | none => .configError
  | some raw =>
    let apiKey := strTrim raw
    if apiKey = "" then .configError
    else
      match env.remote with
      | .fault => .nullFailure
      | .ok allContacts =>
        let qualifiedLeads := allContacts.filter isQualifiedLead
        if qualifiedLeads.length = 0 then .snapshot env.csvSnapshot
        else .snapshot (processAccountDataInternal (qualifiedLeads.map transformContact))

/-! ### Specification-side reference definitions and abbreviations -/

/-- The parsed sales value of an account. -/
def salesOf (a : AccountData) : Int :=
  parseCurrency a.totalSales

/-- A record passing the main-pass validity guard. -/
def rowValid (a : AccountData) : Bool :=
  !(salesExcluded (salesOf a))

/-- Sum of the per-bucket `accounts` fields of a rep/brand rollup. -/
def accountsTotal (m : List (String × RepStats)) : Nat :=
  (m.map fun e => e.2.accounts).sum

/-- Sum of the per-bucket revenue of a traffic-source rollup. -/
def sourceRevenueTotal (m : List (String × SourceStats)) : Int :=
  (m.map fun e => e.2.revenue).sum

/-- Sum of the per-bucket revenue of a geographic or campaign rollup. -/
def leadsRevenueTotal (m : List (String × LeadsRevenue)) : Int :=
  (m.map fun e => e.2.revenue).sum

/-- Sum of the per-bucket revenue of the landing-page rollup. -/
def pageRevenueTotal (m : List (String × PageStats)) : Int :=
  (m.map fun e => e.2.revenue).sum

/-- Sum of the per-bucket revenue of the monthly trend series. -/
def monthlyRevenueTotal (l : List MonthTrend) : Int :=
  (l.map MonthTrend.revenue).sum

/-- Lead health scoring exactly as the claim states it: one source bonus,
first match wins in the priority order Referral +20, Organic Search +15,
Paid Search +10 (this order is what distinguishes the claim from the
source, which tests Organic Search first). -/
def claimLeadHealthScore (account : AccountData) : Int :=
  let source := jsOrStr account.analyticsSource "Unknown"
  let sourceB : Int :=
    if containsStr source "Referral" then 20
    else if containsStr source "Organic Search" then 15
    else if containsStr source "Paid Search" then 10
    else 0
  let visitsB : Int :=
    if jsGtNum account.numVisits 5 then 15
    else if jsGtNum account.numVisits 2 then 10
    else 0
  let stage := strLower account.lifecycleStage
  let stageB : Int :=
    if stage = "customer" then 30
    else if stage = "salesqualifiedlead" then 25
    else if stage = "marketingqualifiedlead" then 15
    else 0
  max 0 (min 100 (50 + sourceB + visitsB + stageB))

/-- The source bonus in the order the source actually tests. -/
def sourceBonus (account : AccountData) : Int :=
  let source := jsOrStr account.analyticsSource "Unknown"
  if containsStr source "Organic Search" then 15
  else if containsStr source "Paid Search" then 10
  else if containsStr source "Referral" then 20
  else 0

def visitsBonus (account : AccountData) : Int :=
  if jsGtNum account.numVisits 5 then 15
  else if jsGtNum account.numVisits 2 then 10
  else 0

def stageBonus (account : AccountData) : Int :=
  let stage := strLower account.lifecycleStage
  if stage = "salesqualifiedlead" then 25
  else if stage = "marketingqualifiedlead" then 15
  else if stage = "customer" then 30
  else 0

/-- The amended reference scoring: identical to the claim except that the
source bonus is resolved in the order Organic Search, Paid Search,
Referral. -/
def amendedLeadHealthScore (account : AccountData) : Int :=
  max 0 (min 100 (50 + sourceBonus account + visitsBonus account + stageBonus account))

/-! ### Concrete fixtures -/

/-- An account with every optional datum at its sentinel default. -/
def baseAccount : AccountData :=
  { accountID := 0
    accountName := "Unknown Account"
    address := "N/A"
    totalSales := .num 0
    dateCreated := none
    dateLastQuoted := "N/A"
    primaryRepName := "N/A"
    lifecycleStage := "unknown"
    analyticsSource := "Unknown"
    latestSource := "Unknown"
    firstTouchCampaign := ""
    lastTouchCampaign := ""
    firstURL := ""
    numVisits := .num 0 }

/-- A record whose parsed sales value (2e12) exceeds the 1e12 validity
bound, equipped with data for every secondary rollup. -/
def overflowAccount : AccountData :=
  { baseAccount with
    accountID := 1
    accountName := "Acme"
    address := "123 Main St, Columbus, OH 43215"
    totalSales := .num 2000000000000
    dateCreated := some (2024, 5)
    primaryRepName := "Alice Smith"
    lifecycleStage := "lead"
    analyticsSource := "Direct Traffic"
    lastTouchCampaign := "Spring Promo"
    firstURL := "https://example.com/pricing" }

/-- A record at the exact 1e12 boundary: it passes the line-303 guard
(`> 1e12` is false) but fails the strict `< 1e12` test of line 310. -/
def boundaryAccount : AccountData :=
  { baseAccount with totalSales := .num 1000000000000 }

/-- An ordinary positive-value account. -/
def posAccount : AccountData :=
  { baseAccount with totalSales := .num 500 }

def negAccount (q : Int) : AccountData :=
  { baseAccount with totalSales := .num q }

/-- Seven accounts with strictly negative parsed sales values. -/
def ex7neg : List AccountData :=
  [negAccount (-1000), negAccount (-2000), negAccount (-3000), negAccount (-4000),
   negAccount (-5000), negAccount (-6000), negAccount (-7000)]

/-- A source string matching both the Referral and the Organic Search
keyword, separating the claim's bonus order from the source's. -/
def mixedSourceAccount : AccountData :=
  { baseAccount with analyticsSource := "Referral Organic Search" }

/-- An environment with a configured credential and a remote fetch whose
qualification filter comes back empty. -/
def envEmptyQualified : HSEnv :=
  { hubspotApiKey := some "key"
    remote := .ok [{ id := 1, firstname := "A", lastname := "B", company := "C",
                     lifecyclestage := some "customer", leadStatus := none,
                     hsLeadStatus := none, createdate := none }]
    csvSnapshot := processAccountDataInternal [posAccount] }

/-- The `validSales` collection predicate of line 310
(`sales > 0 && isFinite(sales) && Math.abs(sales) < 1e12`). -/
def validSale (s : Int) : Bool :=
  decide (0 < s ∧ |s| < 1000000000000)

/-- The stage labels given explicit estimates by the transformer switch. -/
def knownStages : List String :=
  ["customer", "salesqualifiedlead", "sql", "marketingqualifiedlead", "mql", "lead", "subscriber"]

/-- The parsed sales values of a collection in ascending order: the
specification-side description of a ranking. -/
def ascendingSales (data : List AccountData) : List Int :=
  (data.map salesOf).insertionSort (· ≤ ·)

/-! ## Helper lemmas -/

/-- A step-preserved invariant holds after any fold. -/
theorem foldl_preserve {σ β : Type} (Inv : σ → Prop) (step : σ → β → σ)
    (hstep : ∀ s b, Inv s → Inv (step s b)) :
    ∀ (l : List β) (s : σ), Inv s → Inv (List.foldl step s l)
  | [], _, h => h
  | b :: t, s, h => foldl_preserve Inv step hstep t (step s b) (hstep s b h)

/-- Every entry of a bumped rollup is either a freshly updated value or
was already present. -/
theorem mem_bumpWith {α : Type} {k : String} {init : α} {u : α → α} :
    ∀ {m : List (String × α)} {e : String × α}, e ∈ bumpWith k init u m →
      (∃ a, e.2 = u a) ∨ e ∈ m := by
  intro m
  induction m with
  | nil =>
    intro e he
    simp only [bumpWith, List.mem_singleton] at he
    exact Or.inl ⟨init, by rw [he]⟩
  | cons hd t ih =>
    intro e he
    obtain ⟨k2, a⟩ := hd
    by_cases hk : k2 = k
    · simp only [bumpWith, hk, if_true, List.mem_cons] at he
      rcases he with he | he
      · exact Or.inl ⟨a, by rw [he]⟩
      · exact Or.inr (List.mem_cons_of_mem _ he)
    · simp only [bumpWith, hk, if_false, List.mem_cons] at he
      rcases he with he | he
      · exact Or.inr (by simp [he])
      · rcases ih he with h | h
        · exact Or.inl h
        · exact Or.inr (List.mem_cons_of_mem _ h)

/-- A property guaranteed by the update and holding before a bump holds
after it. -/
theorem bumpWith_forall {α : Type} (P : α → Prop) {k : String} {init : α} {u : α → α}
    (hu : ∀ a, P (u a)) {m : List (String × α)} (hm : ∀ e ∈ m, P e.2) :
    ∀ e ∈ bumpWith k init u m, P e.2 := by
  intro e he
  rcases mem_bumpWith he with ⟨a, ha⟩ | h
  · rw [ha]; exact hu a
  · exact hm e h

/-- `incrKey` never changes the key list. -/
theorem incrKey_fst (k : String) :
    ∀ m : List (String × Nat), (incrKey k m).map Prod.fst = m.map Prod.fst := by
  intro m
  induction m with
  | nil => rfl
  | cons hd t ih =>
    obtain ⟨k2, n⟩ := hd
    by_cases hk : k2 = k <;> simp [incrKey, hk, ih]

/-- Bumping a rep/brand rollup raises the bucket-account total by one. -/
theorem accountsTotal_bumpWith (k : String) (s : Int) :
    ∀ m : List (String × RepStats),
      accountsTotal (bumpWith k ⟨0, 0⟩ (fun st => ⟨st.sales + s, st.accounts + 1⟩) m)
        = accountsTotal m + 1 := by
  intro m
  induction m with
  | nil => simp [bumpWith, accountsTotal]
  | cons hd t ih =>
    obtain ⟨k2, a⟩ := hd
    by_cases hk : k2 = k
    · simp only [bumpWith, hk, if_true, accountsTotal, List.map_cons, List.sum_cons]
      simp only [accountsTotal] at *
      omega
    · simp only [bumpWith, hk, if_false, accountsTotal, List.map_cons, List.sum_cons]
      simp only [accountsTotal] at ih
      omega

/-- A row failing the validity guard leaves the main-pass state
untouched (the early `return` of line 303). -/
theorem mainStep_excluded {acc : MainAcc} {r : AccountData}
    (hx : salesExcluded (parseCurrency r.totalSales) = true) : mainStep acc r = acc := by
  simp [mainStep, hx]

theorem mainStep_valid_salesByRep {acc : MainAcc} {r : AccountData}
    (hx : salesExcluded (parseCurrency r.totalSales) = false) :
    (mainStep acc r).salesByRep
      = bumpWith (jsOrStr r.primaryRepName "N/A") ⟨0, 0⟩
          (fun st => ⟨st.sales + parseCurrency r.totalSales, st.accounts + 1⟩) acc.salesByRep := by
  simp [mainStep, hx]

theorem mainStep_valid_salesByBrand {acc : MainAcc} {r : AccountData}
    (hx : salesExcluded (parseCurrency r.totalSales) = false) :
    (mainStep acc r).salesByBrand
      = bumpWith (extractBrandFromAccountNameHS r.accountName) ⟨0, 0⟩
          (fun st => ⟨st.sales + parseCurrency r.totalSales, st.accounts + 1⟩) acc.salesByBrand := by
  simp [mainStep, hx]

theorem mainStep_fst_salesDistribution (acc : MainAcc) (r : AccountData) :
    ((mainStep acc r).salesDistribution).map Prod.fst
      = acc.salesDistribution.map Prod.fst := by
  by_cases hx : salesExcluded (parseCurrency r.totalSales) = true
  · rw [mainStep_excluded hx]
  · have hx2 : (mainStep acc r).salesDistribution
        = incrKey (salesBand (parseCurrency r.totalSales)) acc.salesDistribution := by
      simp at hx
      simp [mainStep, hx]
    rw [hx2, incrKey_fst]

/-- The guarded main pass is oblivious to rows failing the validity
guard: folding over the raw list and over its valid restriction give the
same state. -/
theorem foldl_mainStep_filter :
    ∀ (data : List AccountData) (acc : MainAcc),
      List.foldl mainStep acc data = List.foldl mainStep acc (data.filter rowValid) := by
  intro data
  induction data with
  | nil => intro _; rfl
  | cons r t ih =>
    intro acc
    by_cases hx : salesExcluded (parseCurrency r.totalSales) = true
    · have h2 : rowValid r = false := by simp [rowValid, salesOf, hx]
      rw [List.foldl_cons, mainStep_excluded hx, ih acc, List.filter_cons, h2]
      simp
    · have h2 : rowValid r = true := by simp [rowValid, salesOf]; simpa using hx
      rw [List.foldl_cons, ih (mainStep acc r), List.filter_cons, h2]
      simp [List.foldl_cons]

/-- The collected `validSales` are exactly the positive in-bound parsed
values, in input order. -/
theorem validSales_foldl :
    ∀ (data : List AccountData) (acc : MainAcc),
      (List.foldl mainStep acc data).validSales
        = acc.validSales ++ (data.map salesOf).filter validSale := by
  intro data
  induction data with
  | nil => intro acc; simp
  | cons r t ih =>
    intro acc
    rw [List.foldl_cons, ih (mainStep acc r)]
    by_cases hx : salesExcluded (parseCurrency r.totalSales) = true
    · rw [mainStep_excluded hx]
      have h2 : validSale (parseCurrency r.totalSales) = false := by
        simp only [validSale, decide_eq_false_iff_not]
        rintro ⟨_, habs⟩
        simp only [salesExcluded, decide_eq_true_eq] at hx
        exact absurd hx (not_lt.2 (le_of_lt habs))
      simp [List.filter_cons, h2, salesOf]
    · have hx2 : salesExcluded (parseCurrency r.totalSales) = false := by simpa using hx
      by_cases hv : 0 < parseCurrency r.totalSales ∧ |parseCurrency r.totalSales| < 1000000000000
      · have h1 : (mainStep acc r).validSales
            = acc.validSales ++ [parseCurrency r.totalSales] := by
          simp [mainStep, hx2, hv]
        have h2 : validSale (parseCurrency r.totalSales) = true := by simp [validSale, hv]
        rw [h1]
        simp [List.filter_cons, h2, salesOf]
      · have h1 : (mainStep acc r).validSales = acc.validSales := by
          simp [mainStep, hx2, hv]
        have h2 : validSale (parseCurrency r.totalSales) = false := by simp [validSale, hv]
        rw [h1]
        simp [List.filter_cons, h2, salesOf]

/-- Each valid row adds exactly one account to the rep rollup. -/
theorem accountsTotal_foldl_rep :
    ∀ (data : List AccountData) (acc : MainAcc),
      accountsTotal ((List.foldl mainStep acc data).salesByRep)
        = accountsTotal acc.salesByRep + data.countP rowValid := by
  intro data
  induction data with
  | nil => intro acc; simp
  | cons r t ih =>
    intro acc
    rw [List.foldl_cons, ih (mainStep acc r), List.countP_cons]
    by_cases hx : salesExcluded (parseCurrency r.totalSales) = true
    · have h2 : rowValid r = false := by simp [rowValid, salesOf, hx]
      rw [mainStep_excluded hx]
      simp [h2]
    · have hx2 : salesExcluded (parseCurrency r.totalSales) = false := by simpa using hx
      have h2 : rowValid r = true := by simp [rowValid, salesOf, hx2]
      rw [mainStep_valid_salesByRep hx2, accountsTotal_bumpWith]
      simp [h2]
      omega

/-- Each valid row adds exactly one account to the brand rollup. -/
theorem accountsTotal_foldl_brand :
    ∀ (data : List AccountData) (acc : MainAcc),
      accountsTotal ((List.foldl mainStep acc data).salesByBrand)
        = accountsTotal acc.salesByBrand + data.countP rowValid := by
  intro data
  induction data with
  | nil => intro acc; simp
  | cons r t ih =>
    intro acc
    rw [List.foldl_cons, ih (mainStep acc r), List.countP_cons]
    by_cases hx : salesExcluded (parseCurrency r.totalSales) = true
    · have h2 : rowValid r = false := by simp [rowValid, salesOf, hx]
      rw [mainStep_excluded hx]
      simp [h2]
    · have hx2 : salesExcluded (parseCurrency r.totalSales) = false := by simpa using hx
      have h2 : rowValid r = true := by simp [rowValid, salesOf, hx2]
      rw [mainStep_valid_salesByBrand hx2, accountsTotal_bumpWith]
      simp [h2]
      omega

theorem mainStep_pres_rep (acc : MainAcc) (r : AccountData)
    (h : ∀ e ∈ acc.salesByRep, 0 < e.2.accounts) :
    ∀ e ∈ (mainStep acc r).salesByRep, 0 < e.2.accounts := by
  by_cases hx : salesExcluded (parseCurrency r.totalSales) = true
  · rw [mainStep_excluded hx]; exact h
  · rw [mainStep_valid_salesByRep (by simpa using hx)]
    exact bumpWith_forall (fun st : RepStats => 0 < st.accounts) (fun a => Nat.succ_pos _) h

theorem mainStep_pres_brand (acc : MainAcc) (r : AccountData)
    (h : ∀ e ∈ acc.salesByBrand, 0 < e.2.accounts) :
    ∀ e ∈ (mainStep acc r).salesByBrand, 0 < e.2.accounts := by
  by_cases hx : salesExcluded (parseCurrency r.totalSales) = true
  · rw [mainStep_excluded hx]; exact h
  · rw [mainStep_valid_salesByBrand (by simpa using hx)]
    exact bumpWith_forall (fun st : RepStats => 0 < st.accounts) (fun a => Nat.succ_pos _) h

theorem mainStep_pres_states (acc : MainAcc) (r : AccountData)
    (h : ∀ e ∈ acc.topStates, 0 < e.2.accounts) :
    ∀ e ∈ (mainStep acc r).topStates, 0 < e.2.accounts := by
  by_cases hx : salesExcluded (parseCurrency r.totalSales) = true
  · rw [mainStep_excluded hx]; exact h
  · have hx2 : salesExcluded (parseCurrency r.totalSales) = false := by simpa using hx
    have hshape : (mainStep acc r).topStates
        = match extractState r.address with
          | some st =>
            bumpWith st ⟨0, 0⟩
              (fun x => ⟨x.accounts + 1, x.sales + parseCurrency r.totalSales⟩) acc.topStates
          | none => acc.topStates := by
      simp [mainStep, hx2]
    rw [hshape]
    cases extractState r.address with
    | none => exact h
    | some st => exact bumpWith_forall (fun x : StateStats => 0 < x.accounts) (fun a => Nat.succ_pos _) h

theorem trafficSourceFold_pos (data : List AccountData) :
    ∀ e ∈ trafficSourceFold data, 0 < e.2.leads := by
  unfold trafficSourceFold
  refine foldl_preserve
    (fun m : List (String × SourceStats) => ∀ e ∈ m, 0 < e.2.leads) _ ?_ data [] (by simp)
  intro m a h
  exact bumpWith_forall (fun s : SourceStats => 0 < s.leads) (fun s => Nat.succ_pos _) h

theorem trafficSourcePerformanceOf_pos (data : List AccountData) :
    ∀ e ∈ trafficSourcePerformanceOf data, 0 < e.2.leads := by
  intro e he
  unfold trafficSourcePerformanceOf at he
  rcases List.mem_map.1 he with ⟨x, hx, rfl⟩
  exact trafficSourceFold_pos data x hx

theorem geographicDistributionOf_pos (data : List AccountData) :
    ∀ e ∈ geographicDistributionOf data, 0 < e.2.leads := by
  unfold geographicDistributionOf
  refine foldl_preserve
    (fun m : List (String × LeadsRevenue) => ∀ e ∈ m, 0 < e.2.leads) _ ?_ data [] (by simp)
  intro m a h
  exact bumpWith_forall (fun s : LeadsRevenue => 0 < s.leads) (fun s => Nat.succ_pos _) h

theorem campaignPerformanceOf_pos (data : List AccountData) :
    ∀ e ∈ campaignPerformanceOf data, 0 < e.2.leads := by
  unfold campaignPerformanceOf
  refine foldl_preserve
    (fun m : List (String × LeadsRevenue) => ∀ e ∈ m, 0 < e.2.leads) _ ?_ data [] (by simp)
  intro m a h
  dsimp only
  split
  · exact bumpWith_forall (fun s : LeadsRevenue => 0 < s.leads) (fun s => Nat.succ_pos _) h
  · exact h

theorem landingPageFold_pos (data : List AccountData) :
    ∀ e ∈ landingPageFold data, 0 < e.2.leads := by
  unfold landingPageFold
  refine foldl_preserve
    (fun m : List (String × PageStats) => ∀ e ∈ m, 0 < e.2.leads) _ ?_ data [] (by simp)
  intro m a h
  dsimp only
  split
  · exact bumpWith_forall (fun s : PageStats => 0 < s.leads) (fun s => Nat.succ_pos _) h
  · exact h

theorem landingPagePerformanceOf_pos (data : List AccountData) :
    ∀ e ∈ landingPagePerformanceOf data, 0 < e.2.leads := by
  intro e he
  unfold landingPagePerformanceOf at he
  rcases List.mem_map.1 he with ⟨x, hx, rfl⟩
  exact landingPageFold_pos data x hx

theorem salesDistribution_fst_fold (data : List AccountData) :
    (List.foldl mainStep mainAccInit data).salesDistribution.map Prod.fst
      = salesDistributionInit.map Prod.fst :=
  foldl_preserve
    (fun acc => acc.salesDistribution.map Prod.fst = salesDistributionInit.map Prod.fst)
    mainStep
    (fun s b h => by
      dsimp only at h ⊢
      rw [mainStep_fst_salesDistribution]
      exact h)
    data mainAccInit rfl

/-! ## Claim theorems -/

/-- C1 (counterexample): the claim asserts that a record whose parsed
sales value exceeds the 1e12 bound contributes to no numeric aggregate,
in particular not to the revenue sum of `trafficSourcePerformance`; the
single-record collection `[overflowAccount]` (value 2e12) is excluded
from `totalRevenue` yet contributes its full value to that rollup. -/
theorem C1_counterexample :
    salesExcluded (salesOf overflowAccount) = true ∧
    (processAccountDataInternal [overflowAccount]).totalAccounts = 1 ∧
    (processAccountDataInternal [overflowAccount]).totalRevenue = 0 ∧
    sourceRevenueTotal
        (processAccountDataInternal [overflowAccount]).trafficSourcePerformance
      = 2000000000000 := by
  decide

/-- C1 (amended): a record whose parsed sales value has magnitude above
1e12 still counts toward `totalAccounts` and contributes to none of the
guarded main-pass aggregates (totalRevenue, validSales, rep, brand, band
and state buckets, lifecycle counts) — the guarded pass behaves as if the
record were absent — but the secondary passes apply no validity filter,
so the record's parsed value is included in the revenue sums of
`monthlyTrends`, `trafficSourcePerformance`, `geographicDistribution`,
`campaignPerformance` and `landingPagePerformance` whenever it qualifies
for those rollups, as `overflowAccount` (value 2e12) demonstrates. -/
theorem C1_amended :
    (∀ data : List AccountData,
        (processAccountDataInternal data).totalAccounts = data.length) ∧
    (∀ data : List AccountData, mainFold data = mainFold (data.filter rowValid)) ∧
    (processAccountDataInternal [overflowAccount]).totalRevenue = 0 ∧
    (processAccountDataInternal [overflowAccount]).salesByRep = [] ∧
    (processAccountDataInternal [overflowAccount]).salesByBrand = [] ∧
    (processAccountDataInternal [overflowAccount]).topStates = [] ∧
    monthlyRevenueTotal (processAccountDataInternal [overflowAccount]).monthlyTrends
      = 2000000000000 ∧
    sourceRevenueTotal
        (processAccountDataInternal [overflowAccount]).trafficSourcePerformance
      = 2000000000000 ∧
    leadsRevenueTotal
        (processAccountDataInternal [overflowAccount]).geographicDistribution
      = 2000000000000 ∧
    leadsRevenueTotal (processAccountDataInternal [overflowAccount]).campaignPerformance
      = 2000000000000 ∧
    pageRevenueTotal
        (processAccountDataInternal [overflowAccount]).landingPagePerformance
      = 2000000000000 := by
  refine ⟨fun _ => rfl, fun data => foldl_mainStep_filter data mainAccInit, ?_⟩
  decide

/-- C2 (counterexample): the claim asserts every account of `allAccounts`
is counted in exactly one rep bucket and one brand bucket; the
single-record collection `[overflowAccount]` has one account in
`allAccounts` but zero accounts across all rep buckets and all brand
buckets, because the main pass skips records failing the 1e12 validity
guard. -/
theorem C2_counterexample :
    (processAccountDataInternal [overflowAccount]).allAccounts = [overflowAccount] ∧
    accountsTotal (processAccountDataInternal [overflowAccount]).salesByRep = 0 ∧
    accountsTotal (processAccountDataInternal [overflowAccount]).salesByBrand = 0 := by
  decide

/-- C2 (amended): every record passing the validity guard is counted in
exactly one bucket of `salesByRep` and one of `salesByBrand`: the sum of
the `accounts` fields over each rollup equals the number of valid records
of the input, which can be smaller than the length of `allAccounts` when
records fail the guard. -/
theorem C2_amended :
    ∀ data : List AccountData,
      accountsTotal (processAccountDataInternal data).salesByRep = data.countP rowValid ∧
      accountsTotal (processAccountDataInternal data).salesByBrand = data.countP rowValid ∧
      (processAccountDataInternal data).allAccounts.length = data.length := by
  intro data
  refine ⟨?_, ?_, rfl⟩
  · show accountsTotal (List.foldl mainStep mainAccInit data).salesByRep = _
    rw [accountsTotal_foldl_rep data mainAccInit]
    simp [mainAccInit, accountsTotal]
  · show accountsTotal (List.foldl mainStep mainAccInit data).salesByBrand = _
    rw [accountsTotal_foldl_brand data mainAccInit]
    simp [mainAccInit, accountsTotal]

/-- C9: the snapshot's `allAccounts` field is the input collection
itself, in input order; the ranking computations sort a copy (the pure
embedding of `[...data].sort`) and never touch it. -/
theorem C9_frame (data : List AccountData) :
    (processAccountDataInternal data).allAccounts = data := rfl

/-- C10: for every input, `salesDistribution` holds exactly the six fixed
band keys in their fixed order; on the empty input every band is present
with count 0; and the lazily created rep, brand, state, traffic-source,
geographic, campaign and landing-page rollups never hold a zero-count
entry. -/
theorem C10_invariant :
    (∀ data : List AccountData,
        (processAccountDataInternal data).salesDistribution.map Prod.fst
          = ["Negative", "$0-$1K", "$1K-$5K", "$5K-$10K", "$10K-$25K", "$25K+"]) ∧
    (processAccountDataInternal []).salesDistribution
        = [("Negative", 0), ("$0-$1K", 0), ("$1K-$5K", 0), ("$5K-$10K", 0),
           ("$10K-$25K", 0), ("$25K+", 0)] ∧
    (∀ data : List AccountData,
        (∀ e ∈ (processAccountDataInternal data).salesByRep, 0 < e.2.accounts) ∧
        (∀ e ∈ (processAccountDataInternal data).salesByBrand, 0 < e.2.accounts) ∧
        (∀ e ∈ (processAccountDataInternal data).topStates, 0 < e.2.accounts) ∧
        (∀ e ∈ (processAccountDataInternal data).trafficSourcePerformance, 0 < e.2.leads) ∧
        (∀ e ∈ (processAccountDataInternal data).geographicDistribution, 0 < e.2.leads) ∧
        (∀ e ∈ (processAccountDataInternal data).campaignPerformance, 0 < e.2.leads) ∧
        (∀ e ∈ (processAccountDataInternal data).landingPagePerformance, 0 < e.2.leads)) := by
  refine ⟨?_, by decide, ?_⟩
  · intro data
    show (List.foldl mainStep mainAccInit data).salesDistribution.map Prod.fst = _
    rw [salesDistribution_fst_fold]
    rfl
  · intro data
    refine ⟨?_, ?_, ?_, ?_, ?_, ?_, ?_⟩
    · show ∀ e ∈ (List.foldl mainStep mainAccInit data).salesByRep, 0 < e.2.accounts
      exact foldl_preserve (fun acc => ∀ e ∈ acc.salesByRep, 0 < e.2.accounts)
        mainStep (fun s b h => mainStep_pres_rep s b h) data mainAccInit (by simp [mainAccInit])
    · show ∀ e ∈ (List.foldl mainStep mainAccInit data).salesByBrand, 0 < e.2.accounts
      exact foldl_preserve (fun acc => ∀ e ∈ acc.salesByBrand, 0 < e.2.accounts)
        mainStep (fun s b h => mainStep_pres_brand s b h) data mainAccInit (by simp [mainAccInit])
    · show ∀ e ∈ (List.foldl mainStep mainAccInit data).topStates, 0 < e.2.accounts
      exact foldl_preserve (fun acc => ∀ e ∈ acc.topStates, 0 < e.2.accounts)
        mainStep (fun s b h => mainStep_pres_states s b h) data mainAccInit (by simp [mainAccInit])
    · exact trafficSourcePerformanceOf_pos data
    · exact geographicDistributionOf_pos data
    · exact campaignPerformanceOf_pos data
    · exact landingPagePerformanceOf_pos data

/-- C10 (witness): the rep rollup of the one-account collection
`[posAccount]` holds the bucket `("N/A", 500, 1)`, whose account count is
positive as the invariant theorem requires. -/
theorem C10_witness :
    ((("N/A", (⟨500, 1⟩ : RepStats)) : String × RepStats)
        ∈ (processAccountDataInternal [posAccount]).salesByRep) ∧
    0 < (((⟨500, 1⟩ : RepStats)).accounts) :=
  ⟨by decide, ((C10_invariant.2.2 [posAccount]).1 ("N/A", (⟨500, 1⟩ : RepStats)) (by decide))⟩

/-- C3 (counterexample): for seven strictly negative accounts the claim
predicts the five values closest to zero ordered least-negative first;
the code instead returns the five most negative values ordered
most-negative first. -/
theorem C3_counterexample :
    (processAccountDataInternal ex7neg).leastPerformingAccounts.map salesOf
        = [-7000, -6000, -5000, -4000, -3000] ∧
    (processAccountDataInternal ex7neg).leastPerformingAccounts.map salesOf
        ≠ [-1000, -2000, -3000, -4000, -5000] := by
  decide

/-- C3 (amended): for every collection of exactly 7 accounts with
strictly negative parsed sales values, `leastPerformingAccounts` holds
exactly the 5 most negative values (the first five of the ascending
value ordering), ordered from most negative to least negative. -/
theorem C3_amended (data : List AccountData) (h7 : data.length = 7)
    (hneg : ∀ a ∈ data, parseCurrency a.totalSales < 0) :
    (processAccountDataInternal data).leastPerformingAccounts.map salesOf
      = (ascendingSales data).take 5 := by
  have hperm : (sortedAccountsOf data).Perm data := List.perm_insertionSort salesGe data
  have hlen : (sortedAccountsOf data).length = 7 := by rw [hperm.length_eq, h7]
  have hsorted : List.Sorted salesGe (sortedAccountsOf data) :=
    List.sorted_insertionSort salesGe data
  have hnegS : ∀ a ∈ sortedAccountsOf data, parseCurrency a.totalSales < 0 :=
    fun a ha => hneg a (hperm.mem_iff.1 ha)
  have hfilter : (sortedAccountsOf data).filter
      (fun a => decide (parseCurrency a.totalSales < 0)) = sortedAccountsOf data :=
    List.filter_eq_self.2 (fun a ha => decide_eq_true (hnegS a ha))
  have hleast : (processAccountDataInternal data).leastPerformingAccounts
      = ((sortedAccountsOf data).drop 2).reverse := by
    show leastPerformingOf data = _
    unfold leastPerformingOf jsSliceLast
    dsimp only
    rw [hfilter, hlen]
    rw [if_neg]
    simp only [List.length_reverse, List.length_drop, hlen]
    norm_num
  have hD : List.Sorted (fun x y : Int => y ≤ x) ((sortedAccountsOf data).map salesOf) :=
    List.Pairwise.map salesOf (fun _ _ h => h) hsorted
  have hRevSorted :
      List.Sorted (· ≤ ·) (((sortedAccountsOf data).map salesOf).reverse) := by
    rw [List.Sorted, List.pairwise_reverse]
    exact hD
  have hpermV : (((sortedAccountsOf data).map salesOf).reverse).Perm (data.map salesOf) :=
    (List.reverse_perm _).trans (hperm.map salesOf)
  have hAsc : List.Sorted (fun x y : Int => x ≤ y) (ascendingSales data) :=
    List.sorted_insertionSort _ _
  have hAscPerm : (ascendingSales data).Perm (data.map salesOf) :=
    List.perm_insertionSort _ _
  have hEq : ((sortedAccountsOf data).map salesOf).reverse = ascendingSales data :=
    List.eq_of_perm_of_sorted (hpermV.trans hAscPerm.symm) hRevSorted hAsc
  rw [hleast, List.map_reverse, List.map_drop, List.reverse_drop]
  have hlenMap : ((sortedAccountsOf data).map salesOf).length = 7 := by simp [hlen]
  rw [hlenMap, hEq]

/-- C3 (witness): the amended ranking statement instantiated at a
concrete collection of seven negative-value accounts. -/
theorem C3_witness :
    (ex7neg.length = 7 ∧ ∀ a ∈ ex7neg, parseCurrency a.totalSales < 0) ∧
    (processAccountDataInternal ex7neg).leastPerformingAccounts.map salesOf
      = (ascendingSales ex7neg).take 5 :=
  ⟨⟨by decide, by decide⟩, C3_amended ex7neg (by decide) (by decide)⟩

/-- Source equals the amended reference: both resolve the bonuses through
the same condition chains. -/
theorem score_eq_amended (a : AccountData) :
    calculateLeadHealthScore a = amendedLeadHealthScore a := by
  unfold calculateLeadHealthScore amendedLeadHealthScore sourceBonus visitsBonus stageBonus
  by_cases h1 : containsStr (jsOrStr a.analyticsSource "Unknown") "Organic Search" = true <;>
  by_cases h2 : containsStr (jsOrStr a.analyticsSource "Unknown") "Paid Search" = true <;>
  by_cases h3 : containsStr (jsOrStr a.analyticsSource "Unknown") "Referral" = true <;>
  by_cases h4 : jsGtNum a.numVisits 5 = true <;>
  by_cases h5 : jsGtNum a.numVisits 2 = true <;>
  by_cases h6 : strLower a.lifecycleStage = "salesqualifiedlead" <;>
  by_cases h7 : strLower a.lifecycleStage = "marketingqualifiedlead" <;>
  by_cases h8 : strLower a.lifecycleStage = "customer" <;>
  simp [h1, h2, h3, h4, h5, h6, h7, h8]

/-- C4 (counterexample): the claim resolves the source bonus with
Referral first; the code tests Organic Search first, so a source text
matching both keywords scores 65 in the code against the claim's 70. -/
theorem C4_counterexample :
    calculateLeadHealthScore mixedSourceAccount = 65 ∧
    claimLeadHealthScore mixedSourceAccount = 70 ∧
    calculateLeadHealthScore mixedSourceAccount
      ≠ claimLeadHealthScore mixedSourceAccount := by
  decide

/-- C4 (amended): `calculateLeadHealthScore` equals the reference
definition whose source bonus is resolved in the order Organic Search
+15, Paid Search +10, Referral +20 (first match wins), with the claim's
visit bonus, stage bonus and clamp unchanged; consequently the score is
always within [0, 100], and an account with no matching source, visits
at most 2 and an unknown stage scores exactly 50. -/
theorem C4_amended :
    (∀ account : AccountData,
        calculateLeadHealthScore account = amendedLeadHealthScore account) ∧
    (∀ account : AccountData,
        0 ≤ calculateLeadHealthScore account ∧ calculateLeadHealthScore account ≤ 100) ∧
    calculateLeadHealthScore baseAccount = 50 := by
  refine ⟨score_eq_amended, fun account => ⟨?_, ?_⟩, by decide⟩
  · unfold calculateLeadHealthScore
    exact le_max_left _ _
  · unfold calculateLeadHealthScore
    exact max_le (by norm_num) (min_le_left _ _)

/-- Any stage outside the switch labels receives the default estimate. -/
theorem leadValue_default (s : String) (hs : strLower s ∉ knownStages) :
    leadValue s = 1000 := by
  unfold leadValue
  split <;> simp_all [knownStages]

/-- C5 (counterexample): the claim orders subscriber strictly above
unknown stages, but the switch estimates subscriber at 500 and any
unmatched stage at the 1000 default. -/
theorem C5_counterexample :
    leadValue "subscriber" = 500 ∧ leadValue "unknown" = 1000 ∧
    ¬ (leadValue "unknown" < leadValue "subscriber") := by
  decide

/-- C5 (amended): the fixed estimates are strictly descending in the
order customer > salesqualifiedlead/sql > marketingqualifiedlead/mql >
lead > unknown (default) > subscriber — the claim's order with the last
two entries swapped: any stage outside the switch labels receives 1000,
strictly below lead (2000) and strictly above subscriber (500). -/
theorem C5_amended :
    leadValue "customer" > leadValue "salesqualifiedlead" ∧
    leadValue "salesqualifiedlead" = leadValue "sql" ∧
    leadValue "sql" > leadValue "marketingqualifiedlead" ∧
    leadValue "marketingqualifiedlead" = leadValue "mql" ∧
    leadValue "mql" > leadValue "lead" ∧
    leadValue "lead" > leadValue "subscriber" ∧
    (∀ s : String, strLower s ∉ knownStages →
        leadValue "lead" > leadValue s ∧ leadValue s > leadValue "subscriber" ∧
        leadValue s = 1000) := by
  refine ⟨by decide, by decide, by decide, by decide, by decide, by decide, ?_⟩
  intro s hs
  rw [leadValue_default s hs]
  exact ⟨by decide, by decide, rfl⟩

/-- C5 (witness): the amended ordering instantiated at the unmatched
stage label "opportunity". -/
theorem C5_witness :
    (strLower "opportunity" ∉ knownStages) ∧
    (leadValue "lead" > leadValue "opportunity" ∧
     leadValue "opportunity" > leadValue "subscriber" ∧
     leadValue "opportunity" = 1000) :=
  ⟨by decide, C5_amended.2.2.2.2.2.2 "opportunity" (by decide)⟩

/-- C6: the adapter policy of `fetchAndProcessHubSpotData`: an absent or
blank credential surfaces a configuration error before anything else is
attempted; a remote fetch whose qualification filter comes back empty
falls back to the flat-file snapshot; a remote fetch with at least one
qualifying record is transformed and aggregated, ignoring the flat-file
adapter entirely. -/
theorem C6_policy :
    (∀ env : HSEnv, env.hubspotApiKey = none →
        fetchAndProcessHubSpotData env = .configError) ∧
    (∀ (env : HSEnv) (k : String), env.hubspotApiKey = some k → strTrim k = "" →
        fetchAndProcessHubSpotData env = .configError) ∧
    (∀ (env : HSEnv) (k : String) (contacts : List HSContact),
        env.hubspotApiKey = some k → strTrim k ≠ "" → env.remote = .ok contacts →
        contacts.filter isQualifiedLead = [] →
        fetchAndProcessHubSpotData env = .snapshot env.csvSnapshot) ∧
    (∀ (env : HSEnv) (k : String) (contacts : List HSContact),
        env.hubspotApiKey = some k → strTrim k ≠ "" → env.remote = .ok contacts →
        contacts.filter isQualifiedLead ≠ [] →
        fetchAndProcessHubSpotData env =
          .snapshot (processAccountDataInternal
            ((contacts.filter isQualifiedLead).map transformContact))) := by
  refine ⟨?_, ?_, ?_, ?_⟩
  · intro env hk
    unfold fetchAndProcessHubSpotData
    rw [hk]
  · intro env k hk ht
    unfold fetchAndProcessHubSpotData
    rw [hk]
    simp [ht]
  · intro env k contacts hk ht hrem hfil
    unfold fetchAndProcessHubSpotData
    rw [hk, hrem]
    simp [ht, hfil]
  · intro env k contacts hk ht hrem hfil
    unfold fetchAndProcessHubSpotData
    rw [hk, hrem]
    simp [ht, hfil, List.length_eq_zero]

/-- C6 (witness): the fallback branch at a concrete environment whose
single fetched contact (a customer) is not SQL/MQL-qualified. -/
theorem C6_witness :
    (strTrim "key" ≠ "" ∧
      (envEmptyQualified.remote = RemoteFetch.ok
        [{ id := 1, firstname := "A", lastname := "B", company := "C",
           lifecyclestage := some "customer", leadStatus := none,
           hsLeadStatus := none, createdate := none }]) ∧
      ([{ id := 1, firstname := "A", lastname := "B", company := "C",
          lifecyclestage := some "customer", leadStatus := none,
          hsLeadStatus := none, createdate := none }] : List HSContact).filter
        isQualifiedLead = []) ∧
    fetchAndProcessHubSpotData envEmptyQualified = .snapshot envEmptyQualified.csvSnapshot :=
  ⟨⟨by decide, rfl, by decide⟩,
    C6_policy.2.2.1 envEmptyQualified "key"
      [{ id := 1, firstname := "A", lastname := "B", company := "C",
         lifecyclestage := some "customer", leadStatus := none,
         hsLeadStatus := none, createdate := none }]
      rfl (by decide) rfl (by decide)⟩

/-- C7 (counterexample): brand extraction is not case-insensitive in its
output: a name hitting a generic corporate suffix returns the text before
the suffix in the casing of the input, so the casing variants "Zeta Corp"
and "zeta corp" receive different labels. -/
theorem C7_counterexample :
    extractBrandFromAccountNameHS "Zeta Corp" = "Zeta" ∧
    extractBrandFromAccountNameHS "zeta corp" = "zeta" ∧
    extractBrandFromAccountNameHS "Zeta Corp" ≠ extractBrandFromAccountNameHS "zeta corp" := by
  decide

/-- C7 (amended): brand extraction is a deterministic function of the
account name whose known-token scan is case-insensitive — the claim's own
example holds, both "ACME Corp" and "acme corp" map to the canonical list
token "Acme" — but labels taken from the name text itself (the prefix
before a generic corporate suffix, or the fallback first word) preserve
the input casing, so equality under case variation fails in general. -/
theorem C7_amended :
    extractBrandFromAccountNameHS "ACME Corp" = "Acme" ∧
    extractBrandFromAccountNameHS "acme corp" = "Acme" ∧
    extractBrandFromAccountNameHS "ACME Corp" = extractBrandFromAccountNameHS "acme corp" ∧
    extractBrandFromAccountNameHS "Zeta Corp" = "Zeta" ∧
    extractBrandFromAccountNameHS "zeta corp" = "zeta" := by
  decide

/-- C8 (counterexample): the claim admits values up to magnitude 1e12
inclusive, but the `validSales` collection requires a strict `< 1e12`
(line 310): a collection whose only positive account sits exactly at the
bound passes the main validity guard (it is summed into `totalRevenue`)
yet yields an `averageDealSize` of 0, not a positive value. -/
theorem C8_counterexample :
    0 < salesOf boundaryAccount ∧
    salesExcluded (salesOf boundaryAccount) = false ∧
    (processAccountDataInternal [boundaryAccount]).totalRevenue = 1000000000000 ∧
    (processAccountDataInternal [boundaryAccount]).averageDealSize = 0 := by
  decide

/-- C8 (amended): for every collection containing at least one account
whose parsed sales value is strictly positive and strictly below 1e12,
the snapshot's `averageDealSize` is strictly greater than 0. -/
theorem C8_amended (data : List AccountData) (a : AccountData) (ha : a ∈ data)
    (hpos : 0 < parseCurrency a.totalSales)
    (hlt : parseCurrency a.totalSales < 1000000000000) :
    0 < (processAccountDataInternal data).averageDealSize := by
  have hV : (List.foldl mainStep mainAccInit data).validSales
      = (data.map salesOf).filter validSale := by
    have h := validSales_foldl data mainAccInit
    simpa [mainAccInit] using h
  have hmem : salesOf a ∈ (data.map salesOf).filter validSale := by
    rw [List.mem_filter]
    refine ⟨List.mem_map_of_mem _ ha, ?_⟩
    simp only [validSale, salesOf, decide_eq_true_eq]
    exact ⟨hpos, by rw [abs_of_pos hpos]; exact hlt⟩
  have hne : (List.foldl mainStep mainAccInit data).validSales ≠ [] := by
    rw [hV]
    intro h
    rw [h] at hmem
    exact absurd hmem (List.not_mem_nil _)
  have hallpos : ∀ s ∈ (List.foldl mainStep mainAccInit data).validSales, 0 < s := by
    rw [hV]
    intro s hs
    have h2 := (List.mem_filter.1 hs).2
    simp only [validSale, decide_eq_true_eq] at h2
    exact h2.1
  have hsum : 0 < ((List.foldl mainStep mainAccInit data).validSales).sum :=
    List.sum_pos _ hallpos hne
  have hlen : 0 < ((List.foldl mainStep mainAccInit data).validSales).length :=
    List.length_pos.2 hne
  show 0 < calculateAverage (List.foldl mainStep mainAccInit data).validSales
  unfold calculateAverage
  rw [if_neg (by omega)]
  exact div_pos (by exact_mod_cast hsum) (by exact_mod_cast hlen)

/-- C8 (witness): the amended positivity statement at a one-account
collection with value 500. -/
theorem C8_witness :
    (posAccount ∈ [posAccount] ∧ 0 < parseCurrency posAccount.totalSales ∧
      parseCurrency posAccount.totalSales < 1000000000000) ∧
    0 < (processAccountDataInternal [posAccount]).averageDealSize :=
  ⟨⟨by decide, by decide, by decide⟩,
    C8_amended [posAccount] posAccount (by decide) (by decide) (by decide)⟩

end Dashboard
